import Mathlib

/-!
Verification development for the two coursework notebooks in this
repository:

* `course_2/Week 1/C2M1L2.ipynb` — a recursive least-squares (RLS)
  estimator fitted to five (current, voltage) measurements, together with
  the closed-form batch least-squares solution it is compared against;
* `course_1/Course1_Longitudinal_Vehicle_Model.ipynb` — a forward
  longitudinal vehicle model stepped by explicit Euler integration over a
  scripted throttle/slope profile.

All numeric literals in the notebooks are short decimals, so the code is
embedded exactly over `ℚ`.  The only transcendental operation the vehicle
notebook performs is `sin(alpha)` (and the constants `atan2(3,60)`,
`atan2(9,90)` that are only ever fed to `sin`); the embedding therefore
passes the value of the sine of the incline as an explicit parameter
(`sinAlpha`), which is the single point where a real-valued input would
otherwise enter.  Python raises `ZeroDivisionError` on division by zero
and `numpy.linalg.inv` fails on a singular matrix, so the fallible
operations return `Option`.
-/

/-- A 2-vector of rationals (a 2×1 column, or the transpose of a 1×2 row). -/
@[ext]
structure Vec2 where
  u : ℚ
  v : ℚ
  deriving DecidableEq, Repr

/-- A 2×2 matrix of rationals; `a b / c d` are the entries
`(0,0) (0,1) / (1,0) (1,1)`. -/
@[ext]
structure Mat2 where
  a : ℚ
  b : ℚ
  c : ℚ
  d : ℚ
  deriving DecidableEq, Repr

/-- Matrix–vector product `M · w`. -/
def Mat2.mulVec (M : Mat2) (w : Vec2) : Vec2 :=
  ⟨M.a * w.u + M.b * w.v, M.c * w.u + M.d * w.v⟩

/-- Dot product of two 2-vectors (a 1×2 row times a 2×1 column). -/
def Vec2.dot (p q : Vec2) : ℚ :=
  p.u * q.u + p.v * q.v

/-- Outer product of a 2×1 column with a 1×2 row. -/
def Vec2.outer (p q : Vec2) : Mat2 :=
  ⟨p.u * q.u, p.u * q.v, p.v * q.u, p.v * q.v⟩

/-- Matrix product of two 2×2 matrices. -/
def Mat2.mul (M N : Mat2) : Mat2 :=
  ⟨M.a * N.a + M.b * N.c, M.a * N.b + M.b * N.d,
   M.c * N.a + M.d * N.c, M.c * N.b + M.d * N.d⟩

/-- Matrix difference. -/
def Mat2.sub (M N : Mat2) : Mat2 :=
  ⟨M.a - N.a, M.b - N.b, M.c - N.c, M.d - N.d⟩

/-- The 2×2 identity matrix (`np.eye(2,2)`). -/
def idMat2 : Mat2 := ⟨1, 0, 0, 1⟩

/-- Trace of a 2×2 matrix. -/
def Mat2.trace (M : Mat2) : ℚ := M.a + M.d

/-- The quadratic form `[h1 h2] · M · [h1 h2]ᵀ` of a 2×2 matrix. -/
def Mat2.quadForm (M : Mat2) (h1 h2 : ℚ) : ℚ :=
  h1 * (M.a * h1 + M.b * h2) + h2 * (M.c * h1 + M.d * h2)

/-- The data model's notion of a valid covariance matrix: symmetric and
non-negative-definite (for a 2×2 matrix: both diagonal entries non-negative
and determinant non-negative). -/
def Mat2.PosSemidef (M : Mat2) : Prop :=
  M.b = M.c ∧ 0 ≤ M.a ∧ 0 ≤ M.d ∧ M.b ^ 2 ≤ M.a * M.d

instance (M : Mat2) : Decidable M.PosSemidef :=
  inferInstanceAs (Decidable (_ ∧ _ ∧ _ ∧ _))

/-- `I = np.array([[0.2, 0.3, 0.4, 0.5, 0.6]]).T` — the current data. -/
def Ivals : List ℚ := [2/10, 3/10, 4/10, 5/10, 6/10]

/-- `V = np.array([[1.23, 1.38, 2.06, 2.47, 3.17]]).T` — the voltage data. -/
def Vvals : List ℚ := [123/100, 138/100, 206/100, 247/100, 317/100]

/-- `I[k]` (0 outside the five rows, which the loop never touches). -/
def Iget (k : ℕ) : ℚ := Ivals.getD k 0

/-- `V[k]` (0 outside the five rows, which the loop never touches). -/
def Vget (k : ℕ) : ℚ := Vvals.getD k 0

/-- The measurement table, one `(current, voltage)` pair per row. -/
def meas : List (ℚ × ℚ) := Ivals.zip Vvals

/-- `R_k = np.array([[0.0225]])` — the scalar measurement-noise variance. -/
def R_var : ℚ := 225 / 10000

/-- `x_k = np.array([2.0, 1.0])` — the initial parameter vector the code
actually constructs (the notebook's own text documents the prior
`R ~ N(4, 9.0)`, `b ~ N(0, 0.2)`, i.e. the vector `[4, 0]`). -/
def x_0 : Vec2 := ⟨2, 1⟩

/-- `P_k = np.array([[2, 4], [1, 2]])` — the initial covariance the code
actually constructs (the code's own comment says the off-diagonal elements
should be zero). -/
def P_0 : Mat2 := ⟨2, 4, 1, 2⟩

/-- The innovation covariance `H·P·Hᵀ + R` for the observation row
`H = [h1, 1]`, the scalar inverted inside the gain computation
`inv(np.dot(H_k, np.dot(P_k, H_k.T)) + R_k)`. -/
def innovS (r h1 : ℚ) (P : Mat2) : ℚ :=
  h1 * (P.a * h1 + P.b) + (P.c * h1 + P.d) + r

/-- One iteration of the loop body of the `Recursive Solution` cell, for the
observation row `H_k = [h1, 1]`, target `y` and noise variance `r`:

* `K_k = P_k · H_kᵀ · (H_k · P_k · H_kᵀ + R_k)⁻¹`
* `x_k ← x_k + K_k · (y_k − H_k · x_k)`
* `P_k ← (I − K_k · H_k) · P_k`

Division by the scalar innovation covariance is written with `ℚ`'s total
division; `rlsStepChecked` adds the singularity check of `np.linalg.inv`. -/
def rlsStep (r h1 y : ℚ) (x : Vec2) (P : Mat2) : Vec2 × Mat2 :=
  let S : ℚ := h1 * (P.a * h1 + P.b) + (P.c * h1 + P.d) + r
  let K1 : ℚ := (P.a * h1 + P.b) / S
  let K2 : ℚ := (P.c * h1 + P.d) / S
  let resid : ℚ := y - (h1 * x.u + x.v)
  let x' : Vec2 := ⟨x.u + K1 * resid, x.v + K2 * resid⟩
  let P' : Mat2 :=
    ⟨(1 - K1 * h1) * P.a + (-(K1)) * P.c, (1 - K1 * h1) * P.b + (-(K1)) * P.d,
     (-(K2 * h1)) * P.a + (1 - K2) * P.c, (-(K2 * h1)) * P.b + (1 - K2) * P.d⟩
  (x', P')

/-- The same iteration, failing (as `np.linalg.inv` does) when the 1×1
matrix being inverted is singular. -/
def rlsStepChecked (r h1 y : ℚ) (x : Vec2) (P : Mat2) : Option (Vec2 × Mat2) :=
  if innovS r h1 P = 0 then none else some (rlsStep r h1 y x P)

/-- The state `(x_k, P_k)` after the first `k` iterations of the
`for k in range(num_meas)` loop, starting from the code's initializers
(`x_hist[k]`, `P_hist[k]`). -/
def rlsIter : ℕ → Vec2 × Mat2
  | 0 => (x_0, P_0)
  | k + 1 => rlsStep R_var (Iget k) (Vget k) (rlsIter k).1 (rlsIter k).2

/-- The measurement loop as a fold over a list of `(current, voltage)`
pairs, consuming them in list order. -/
def rlsRun : List (ℚ × ℚ) → Vec2 × Mat2 → Vec2 × Mat2
  | [], s => s
  | (i, y) :: rest, s => rlsRun rest (rlsStep R_var i y s.1 s.2)

/-- Entry-wise 2×2 matrix inverse `inv M = det⁻¹ · adj M`
(`numpy.linalg.inv` on a 2×2 argument). -/
def inv2 (M : Mat2) : Mat2 :=
  let det : ℚ := M.a * M.d - M.b * M.c
  ⟨M.d / det, -M.b / det, -M.c / det, M.a / det⟩

/-- `Σ I_k` over the data. -/
def sumI : ℚ := Ivals.sum

/-- `Σ I_k²` over the data. -/
def sumII : ℚ := (Ivals.map fun t => t * t).sum

/-- `Σ V_k` over the data. -/
def sumV : ℚ := Vvals.sum

/-- `Σ I_k · V_k` over the data. -/
def sumIV : ℚ := ((Ivals.zip Vvals).map fun p => p.1 * p.2).sum

/-- `H.T.dot(H)` for the batch design matrix `H` whose first column is `I`
and whose second column is all ones: `[[Σ I², Σ I], [Σ I, 5]]`. -/
def HtH : Mat2 := ⟨sumII, sumI, sumI, 5⟩

/-- `H.T.dot(V)` for the same design matrix: `[Σ I·V, Σ V]`. -/
def HtV : Vec2 := ⟨sumIV, sumV⟩

/-- `x_ls = inv(H.T.dot(H)).dot(H.T.dot(V))` — the batch least-squares
solution of the `Batch Solution` cell. -/
def x_ls : Vec2 := (inv2 HtH).mulVec HtV

/-- The initial parameter vector the notebook's text documents
(`R ~ N(4, 9.0)`, `b ~ N(0, 0.2)` gives the prior mean `[4, 0]`); the code
cell deviates from it. -/
def x_0_doc : Vec2 := ⟨4, 0⟩

/-- The initial covariance the notebook's text documents: variances 9.0
and 0.2 on the diagonal, zero off-diagonal entries; the code cell deviates
from it. -/
def P_0_doc : Mat2 := ⟨9, 0, 0, 2/10⟩

/-- The recursive run restarted from the documented prior instead of the
values the code actually assigns. -/
def rlsIterDoc : ℕ → Vec2 × Mat2
  | 0 => (x_0_doc, P_0_doc)
  | k + 1 => rlsStep R_var (Iget k) (Vget k) (rlsIterDoc k).1 (rlsIterDoc k).2

/-- The update of the spec's contract, written with the spec's matrix
operations: `S = H·P·Hᵀ + r`, `K = P·Hᵀ·S⁻¹`, `x̂' = x̂ + K·(y − H·x̂)`,
`P' = (I − K·H)·P`, with `H = [h1, 1]` and `K` taken from the pre-update
`P`. -/
def rlsSpecStep (r h1 y : ℚ) (x : Vec2) (P : Mat2) : Vec2 × Mat2 :=
  let H : Vec2 := ⟨h1, 1⟩
  let S : ℚ := H.dot (P.mulVec H) + r
  let K : Vec2 := ⟨(P.mulVec H).u * S⁻¹, (P.mulVec H).v * S⁻¹⟩
  let x' : Vec2 := ⟨x.u + K.u * (y - H.dot x), x.v + K.v * (y - H.dot x)⟩
  let P' : Mat2 := (idMat2.sub (K.outer H)).mul P
  (x', P')

lemma quad_form_nonneg (a b d h : ℚ) (ha : 0 ≤ a) (hd : 0 ≤ d)
    (hb : b ^ 2 ≤ a * d) : 0 ≤ a * h ^ 2 + 2 * b * h + d := by
  rcases eq_or_lt_of_le ha with h0 | hpos
  · have ha0 : a = 0 := h0.symm
    subst ha0
    have hb0 : b = 0 := by nlinarith [sq_nonneg b]
    subst hb0
    simpa using hd
  · nlinarith [sq_nonneg (a * h + b)]

lemma innovS_eq (r h1 : ℚ) (P : Mat2) (hbc : P.b = P.c) :
    innovS r h1 P = P.a * h1 ^ 2 + 2 * P.b * h1 + P.d + r := by
  unfold innovS; rw [← hbc]; ring

lemma innovS_pos (P : Mat2) (hP : P.PosSemidef) (r : ℚ) (hr : 0 < r)
    (h1 : ℚ) : 0 < innovS r h1 P := by
  obtain ⟨hbc, ha, hd, hb⟩ := hP
  have hq := quad_form_nonneg P.a P.b P.d h1 ha hd hb
  rw [innovS_eq r h1 P hbc]
  linarith

/-- Closed form of the covariance half of `rlsStep` at a symmetric input
covariance `⟨a, b, b, d⟩`: writing `v = P·Hᵀ` and `S` for the innovation
covariance, the update is the rank-one correction `P − v·vᵀ/S`. -/
lemma rlsStep_cov_eq (r h y : ℚ) (x : Vec2) (a b d : ℚ)
    (hS : h * (a * h + b) + (b * h + d) + r ≠ 0) :
    (rlsStep r h y x ⟨a, b, b, d⟩).2 =
      ⟨a - (a * h + b) ^ 2 / (h * (a * h + b) + (b * h + d) + r),
       b - (a * h + b) * (b * h + d) / (h * (a * h + b) + (b * h + d) + r),
       b - (a * h + b) * (b * h + d) / (h * (a * h + b) + (b * h + d) + r),
       d - (b * h + d) ^ 2 / (h * (a * h + b) + (b * h + d) + r)⟩ := by
  simp only [rlsStep]
  ext <;> (field_simp; ring)

/-- Claim C2: for every current state `(x̂, P)`, observation row
`H = [current, 1]`, scalar target `y` and noise variance `r`, one
iteration of the recursive estimator computes exactly the spec's
`S = H·P·Hᵀ + r`, `K = P·Hᵀ·S⁻¹`, `x̂' = x̂ + K·(y − H·x̂)` and
`P' = (I − K·H)·P`, with `K` taken from the pre-update `P`: the code's
loop body agrees with the spec's contract on every input. -/
theorem rls_step_matches_spec_contract (r h1 y : ℚ) (x : Vec2) (P : Mat2) :
    rlsStep r h1 y x P = rlsSpecStep r h1 y x P := by
  obtain ⟨xu, xv⟩ := x
  obtain ⟨a, b, c, d⟩ := P
  simp only [rlsStep, rlsSpecStep, Vec2.dot, Mat2.mulVec, Vec2.outer,
    Mat2.mul, Mat2.sub, idMat2, Prod.mk.injEq, mul_one, one_mul]
  constructor
  · ext <;> ring
  · ext <;> ring

/-- Claim C3: for every valid input — a symmetric non-negative-definite
covariance `P` and noise variance `r > 0` — the covariance produced by one
recursive update is symmetric and its trace does not exceed the trace of
`P`: uncertainty does not increase after an informative update. -/
theorem rls_step_cov_symm_trace_le (x : Vec2) (P : Mat2)
    (hP : P.PosSemidef) (r : ℚ) (hr : 0 < r) (h1 y : ℚ) :
    (rlsStep r h1 y x P).2.b = (rlsStep r h1 y x P).2.c ∧
      (rlsStep r h1 y x P).2.trace ≤ P.trace := by
  obtain ⟨a, b, c, d⟩ := P
  obtain ⟨hbc, ha, hd, hb⟩ := hP
  simp only at hbc ha hd hb
  subst hbc
  have hS : 0 < innovS r h1 ⟨a, b, b, d⟩ :=
    innovS_pos ⟨a, b, b, d⟩ ⟨rfl, ha, hd, hb⟩ r hr h1
  have hSe : innovS r h1 ⟨a, b, b, d⟩ =
      h1 * (a * h1 + b) + (b * h1 + d) + r := rfl
  rw [hSe] at hS
  rw [rlsStep_cov_eq r h1 y x a b d hS.ne']
  refine ⟨rfl, ?_⟩
  have h1nn : 0 ≤ (a * h1 + b) ^ 2 / (h1 * (a * h1 + b) + (b * h1 + d) + r) :=
    div_nonneg (sq_nonneg _) hS.le
  have h2nn : 0 ≤ (b * h1 + d) ^ 2 / (h1 * (a * h1 + b) + (b * h1 + d) + r) :=
    div_nonneg (sq_nonneg _) hS.le
  simp only [Mat2.trace]
  linarith

/-- Claim C3, instantiated: the update at `x̂ = 0`, `P = I`, `r = 1`,
`H = [0, 1]`, `y = 0` keeps the covariance symmetric and does not increase
its trace. -/
theorem rls_step_cov_symm_trace_le_witness :
    (rlsStep 1 0 0 ⟨0, 0⟩ ⟨1, 0, 0, 1⟩).2.b =
        (rlsStep 1 0 0 ⟨0, 0⟩ ⟨1, 0, 0, 1⟩).2.c ∧
      (rlsStep 1 0 0 ⟨0, 0⟩ ⟨1, 0, 0, 1⟩).2.trace ≤ Mat2.trace ⟨1, 0, 0, 1⟩ :=
  rls_step_cov_symm_trace_le ⟨0, 0⟩ ⟨1, 0, 0, 1⟩
    ⟨rfl, by decide, by decide, by simp⟩ 1 (by decide) 0 0

/-- Claim C5: with a valid covariance and `r > 0`, the innovation
covariance `S = H·P·Hᵀ + r` is strictly positive, so the 1×1 inversion in
the gain computation is defined; and on each of the five iterations of the
program's actual run the innovation covariance is strictly positive and
the checked update (which fails exactly when `np.linalg.inv` would) does
not fail. -/
theorem rls_innovS_pos_and_run_never_fails (P : Mat2) (hP : P.PosSemidef)
    (r : ℚ) (hr : 0 < r) (h1 : ℚ) :
    0 < innovS r h1 P ∧
      ∀ k : Fin 5, 0 < innovS R_var (Iget k.val) (rlsIter k.val).2 ∧
        rlsStepChecked R_var (Iget k.val) (Vget k.val)
          (rlsIter k.val).1 (rlsIter k.val).2 ≠ none := by
  refine ⟨innovS_pos P hP r hr h1, ?_⟩
  intro k
  fin_cases k <;>
    refine ⟨by norm_num [rlsIter, rlsStep, innovS, x_0, P_0, R_var,
        Iget, Vget, Ivals, Vvals], ?_⟩ <;>
    · rw [rlsStepChecked, if_neg]
      · exact Option.some_ne_none _
      · norm_num [rlsIter, rlsStep, innovS, x_0, P_0, R_var,
          Iget, Vget, Ivals, Vvals]

/-- Claim C5, instantiated at `P = I`, `r = 1`, `H = [0, 1]`. -/
theorem rls_innovS_pos_and_run_never_fails_witness :
    0 < innovS 1 0 ⟨1, 0, 0, 1⟩ ∧
      ∀ k : Fin 5, 0 < innovS R_var (Iget k.val) (rlsIter k.val).2 ∧
        rlsStepChecked R_var (Iget k.val) (Vget k.val)
          (rlsIter k.val).1 (rlsIter k.val).2 ≠ none :=
  rls_innovS_pos_and_run_never_fails ⟨1, 0, 0, 1⟩
    ⟨rfl, by decide, by decide, by simp⟩ 1 (by decide) 0

lemma trace_decrease_eq (r h y : ℚ) (x : Vec2) (a b d : ℚ)
    (hS : h * (a * h + b) + (b * h + d) + r ≠ 0) :
    Mat2.trace ⟨a, b, b, d⟩ - ((rlsStep r h y x ⟨a, b, b, d⟩).2).trace
      = ((a * h + b) ^ 2 + (b * h + d) ^ 2) /
          (h * (a * h + b) + (b * h + d) + r) := by
  rw [rlsStep_cov_eq r h y x a b d hS]
  simp only [Mat2.trace]
  ring

lemma second_gain_num1 (a b d h r : ℚ)
    (hS : h * (a * h + b) + (b * h + d) + r ≠ 0) :
    (a - (a*h+b)^2 / (h*(a*h+b) + (b*h+d) + r)) * h
        + (b - (a*h+b)*(b*h+d) / (h*(a*h+b) + (b*h+d) + r))
      = (a*h+b) * r / (h*(a*h+b) + (b*h+d) + r) := by
  field_simp
  ring

lemma second_gain_num2 (a b d h r : ℚ)
    (hS : h * (a * h + b) + (b * h + d) + r ≠ 0) :
    (b - (a*h+b)*(b*h+d) / (h*(a*h+b) + (b*h+d) + r)) * h
        + (d - (b*h+d)^2 / (h*(a*h+b) + (b*h+d) + r))
      = (b*h+d) * r / (h*(a*h+b) + (b*h+d) + r) := by
  field_simp
  ring

/-- Claim C6: starting from a valid state (symmetric non-negative-definite
covariance) with `r > 0`, applying the update twice with the same
measurement (identical `H = [h1, 1]` and `y`) tightens the covariance less
the second time: the decrease in `trace P` caused by the second update is
no greater than the decrease caused by the first. -/
theorem rls_repeat_measurement_diminishing (x : Vec2) (P : Mat2)
    (hP : P.PosSemidef) (r : ℚ) (hr : 0 < r) (h1 y : ℚ) :
    (rlsStep r h1 y x P).2.trace -
        (rlsStep r h1 y (rlsStep r h1 y x P).1 (rlsStep r h1 y x P).2).2.trace
      ≤ P.trace - (rlsStep r h1 y x P).2.trace := by
  obtain ⟨a, b, c, d⟩ := P
  obtain ⟨hbc, ha, hd, hb⟩ := hP
  simp only at hbc ha hd hb
  subst hbc
  have hquad := quad_form_nonneg a b d h1 ha hd hb
  have hq : 0 ≤ h1 * (a * h1 + b) + (b * h1 + d) := by
    have e : h1 * (a * h1 + b) + (b * h1 + d) = a * h1 ^ 2 + 2 * b * h1 + d := by
      ring
    linarith [e ▸ hquad]
  have hS : 0 < h1 * (a * h1 + b) + (b * h1 + d) + r := by linarith
  have hP1eq := rlsStep_cov_eq r h1 y x a b d hS.ne'
  have D1 := trace_decrease_eq r h1 y x a b d hS.ne'
  rw [hP1eq] at D1 ⊢
  rw [D1]
  have e1 := second_gain_num1 a b d h1 r hS.ne'
  have e2 := second_gain_num2 a b d h1 r hS.ne'
  have hS1 : 0 <
      h1 * ((a - (a*h1+b)^2 / (h1*(a*h1+b) + (b*h1+d) + r)) * h1
          + (b - (a*h1+b)*(b*h1+d) / (h1*(a*h1+b) + (b*h1+d) + r)))
        + ((b - (a*h1+b)*(b*h1+d) / (h1*(a*h1+b) + (b*h1+d) + r)) * h1
          + (d - (b*h1+d)^2 / (h1*(a*h1+b) + (b*h1+d) + r))) + r := by
    rw [e1, e2]
    have e3 : h1 * ((a*h1+b) * r / (h1*(a*h1+b) + (b*h1+d) + r))
        + (b*h1+d) * r / (h1*(a*h1+b) + (b*h1+d) + r)
        = (h1*(a*h1+b) + (b*h1+d)) * r / (h1*(a*h1+b) + (b*h1+d) + r) := by
      field_simp
      ring
    rw [e3]
    have : 0 ≤ (h1*(a*h1+b) + (b*h1+d)) * r / (h1*(a*h1+b) + (b*h1+d) + r) :=
      div_nonneg (mul_nonneg hq hr.le) hS.le
    linarith
  have e3 : h1 * ((a*h1+b) * r / (h1*(a*h1+b) + (b*h1+d) + r))
      + (b*h1+d) * r / (h1*(a*h1+b) + (b*h1+d) + r)
      = (h1*(a*h1+b) + (b*h1+d)) * r / (h1*(a*h1+b) + (b*h1+d) + r) := by
    field_simp
    ring
  have D2 := trace_decrease_eq r h1 y (rlsStep r h1 y x ⟨a, b, b, d⟩).1
    (a - (a*h1+b)^2 / (h1*(a*h1+b) + (b*h1+d) + r))
    (b - (a*h1+b)*(b*h1+d) / (h1*(a*h1+b) + (b*h1+d) + r))
    (d - (b*h1+d)^2 / (h1*(a*h1+b) + (b*h1+d) + r)) hS1.ne'
  rw [D2, e1, e2, e3]
  have hS1' : 0 < (h1*(a*h1+b) + (b*h1+d)) * r / (h1*(a*h1+b) + (b*h1+d) + r) + r := by
    have : 0 ≤ (h1*(a*h1+b) + (b*h1+d)) * r / (h1*(a*h1+b) + (b*h1+d) + r) :=
      div_nonneg (mul_nonneg hq hr.le) hS.le
    linarith
  rw [div_le_div_iff hS1' hS]
  have diff_eq : ((a*h1+b)^2 + (b*h1+d)^2) *
        ((h1*(a*h1+b) + (b*h1+d)) * r / (h1*(a*h1+b) + (b*h1+d) + r) + r)
      - (((a*h1+b) * r / (h1*(a*h1+b) + (b*h1+d) + r))^2
          + ((b*h1+d) * r / (h1*(a*h1+b) + (b*h1+d) + r))^2) *
        (h1*(a*h1+b) + (b*h1+d) + r)
      = 2 * (h1*(a*h1+b) + (b*h1+d)) * ((a*h1+b)^2 + (b*h1+d)^2) * r /
          (h1*(a*h1+b) + (b*h1+d) + r) := by
    field_simp
    ring
  have hnn : 0 ≤ 2 * (h1*(a*h1+b) + (b*h1+d)) * ((a*h1+b)^2 + (b*h1+d)^2) * r /
      (h1*(a*h1+b) + (b*h1+d) + r) := by
    apply div_nonneg _ hS.le
    have hw : 0 ≤ (a*h1+b)^2 + (b*h1+d)^2 :=
      add_nonneg (sq_nonneg _) (sq_nonneg _)
    have h2 : (0:ℚ) ≤ 2 := by norm_num
    exact mul_nonneg (mul_nonneg (mul_nonneg h2 hq) hw) hr.le
  linarith [diff_eq, hnn]

/-- Claim C6, instantiated at `x̂ = 0`, `P = I`, `r = 1`, `H = [0, 1]`,
`y = 0`. -/
theorem rls_repeat_measurement_diminishing_witness :
    (rlsStep 1 0 0 ⟨0, 0⟩ ⟨1, 0, 0, 1⟩).2.trace -
        (rlsStep 1 0 0 (rlsStep 1 0 0 ⟨0, 0⟩ ⟨1, 0, 0, 1⟩).1
          (rlsStep 1 0 0 ⟨0, 0⟩ ⟨1, 0, 0, 1⟩).2).2.trace
      ≤ Mat2.trace ⟨1, 0, 0, 1⟩ - (rlsStep 1 0 0 ⟨0, 0⟩ ⟨1, 0, 0, 1⟩).2.trace :=
  rls_repeat_measurement_diminishing ⟨0, 0⟩ ⟨1, 0, 0, 1⟩
    ⟨rfl, by decide, by decide, by simp⟩ 1 (by decide) 0 0

lemma x_ls_eq : x_ls = ⟨497/100, 37/500⟩ := by
  norm_num [x_ls, inv2, HtH, HtV, sumI, sumII, sumIV, sumV, Ivals, Vvals,
    Mat2.mulVec]

set_option maxHeartbeats 1000000 in
lemma rlsIter5_eq :
    rlsIter 5 = (⟨101054/43645, 50527/43645⟩,
      ⟨18/8729, 36/8729, 9/8729, 18/8729⟩) := by
  norm_num [rlsIter, rlsStep, x_0, P_0, R_var, Iget, Vget, Ivals, Vvals]

set_option maxHeartbeats 1000000 in
lemma rlsIterDoc5_eq :
    rlsIterDoc 5 = (⟨488958/98245, 6844/98245⟩,
      ⟨3681/19649, -1440/19649, -1440/19649, 3249/98245⟩) := by
  norm_num [rlsIterDoc, rlsStep, x_0_doc, P_0_doc, R_var, Iget, Vget,
    Ivals, Vvals]

/-- Claim C1 (code bug): the batch solution is exactly `(4.97, 0.074)`,
but the recursive run the code actually performs — whose initializers
`x_0 = [2, 1]`, `P_0 = [[2, 4], [1, 2]]` contradict the notebook's
documented prior `[4, 0]`, `diag(9, 0.2)` — ends at
`(101054/43645, 50527/43645) ≈ (2.3154, 1.1577)`: the resistance estimate
is more than 2 below the batch value instead of matching it to two decimal
places, and the offset is more than 1 above it.  Restarted from the
documented prior, the same update loop ends within `0.01` of the batch
solution in both components. -/
theorem rls_final_estimate_far_from_batch :
    x_ls = ⟨497/100, 37/500⟩ ∧
      (rlsIter 5).1 = ⟨101054/43645, 50527/43645⟩ ∧
      2 < x_ls.u - (rlsIter 5).1.u ∧
      1 < (rlsIter 5).1.v - x_ls.v ∧
      (-(1/100) < (rlsIterDoc 5).1.u - x_ls.u ∧
        (rlsIterDoc 5).1.u - x_ls.u < 1/100) ∧
      (-(1/100) < (rlsIterDoc 5).1.v - x_ls.v ∧
        (rlsIterDoc 5).1.v - x_ls.v < 1/100) := by
  rw [x_ls_eq, rlsIter5_eq, rlsIterDoc5_eq]
  norm_num

/-- Claim C4 (code bug): the initial covariance the code constructs is
`[[2, 4], [1, 2]]` — its off-diagonal entries are 4 and 1 rather than
zero, it is not symmetric, it is not non-negative-definite (the quadratic
form at the direction `[-1, 1]` is negative), and the asymmetry persists:
the covariance after the five updates of the actual run is still not
symmetric. -/
theorem rls_cov_init_not_symmetric_not_psd :
    P_0.b = 4 ∧ P_0.c = 1 ∧ P_0.b ≠ P_0.c ∧ ¬ P_0.PosSemidef ∧
      Mat2.quadForm P_0 (-1) 1 < 0 ∧
      (rlsIter 5).2.b ≠ (rlsIter 5).2.c := by
  rw [rlsIter5_eq]
  refine ⟨rfl, rfl, ?_, ?_, ?_, ?_⟩ <;>
    norm_num [Mat2.PosSemidef, Mat2.quadForm, P_0]

/-- Claim C7: the update and the measurement loop are pure functions of
their inputs and the previous state — two runs on identical inputs in
identical order produce identical outputs. -/
theorem rls_run_deterministic (ms1 ms2 : List (ℚ × ℚ)) (s1 s2 : Vec2 × Mat2)
    (hm : ms1 = ms2) (hs : s1 = s2) : rlsRun ms1 s1 = rlsRun ms2 s2 := by
  rw [hm, hs]

/-- Claim C7, instantiated: two runs over the program's own measurement
table from the program's own initial state coincide. -/
theorem rls_run_deterministic_witness :
    rlsRun meas (x_0, P_0) = rlsRun meas (x_0, P_0) :=
  rls_run_deterministic meas meas (x_0, P_0) (x_0, P_0) rfl rfl

/-- The `Vehicle` object: the model parameters and state variables set by
`Vehicle.__init__`, all exact decimals. -/
structure Veh where
  a_0 : ℚ
  a_1 : ℚ
  a_2 : ℚ
  GR : ℚ
  r_e : ℚ
  J_e : ℚ
  m : ℚ
  g : ℚ
  c_a : ℚ
  c_r1 : ℚ
  c : ℚ
  F_max : ℚ
  x : ℚ
  v : ℚ
  a : ℚ
  w_e : ℚ
  w_e_dot : ℚ
  sample_time : ℚ
  deriving DecidableEq, Repr

/-- `Vehicle.__init__`: parameter values and initial state
(`x = 0, v = 5, a = 0, w_e = 100, w_e_dot = 0`, `sample_time = 0.01`). -/
def vehInit : Veh :=
  { a_0 := 400, a_1 := 1/10, a_2 := -2/10000, GR := 35/100, r_e := 3/10,
    J_e := 10, m := 2000, g := 981/100, c_a := 136/100, c_r1 := 1/100,
    c := 10000, F_max := 10000,
    x := 0, v := 5, a := 0, w_e := 100, w_e_dot := 0, sample_time := 1/100 }

/-- `Vehicle.reset`: restores the five state variables, touching nothing
else. -/
def Veh.reset (s : Veh) : Veh :=
  { s with x := 0, v := 5, a := 0, w_e := 100, w_e_dot := 0 }

/-- `Vehicle.step(throttle, alpha)`.  The incline enters the dynamics only
through `sin(alpha)`, so the embedding receives that value directly as
`sinAlpha` (`F_g = m·g·sinAlpha`).  The position, velocity and engine
speed are integrated first; the slip ratio then divides by the *updated*
velocity, and Python raises `ZeroDivisionError` when it is zero, hence the
`Option`. -/
def Veh.step (s : Veh) (throttle sinAlpha : ℚ) : Option Veh :=
  let x' := s.x + s.v * s.sample_time
  let v' := s.v + s.a * s.sample_time
  let w_e' := s.w_e + s.w_e_dot * s.sample_time
  if v' = 0 then none
  else
    let omega_w := s.GR * w_e'
    let slip := omega_w * s.r_e / v' - 1
    let F_x := if |slip| < 1 then s.c * slip else s.F_max
    let F_g := s.m * s.g * sinAlpha
    let R_x := s.c_r1 * v'
    let F_aero := s.c_a * v' ^ 2
    let F_load := F_aero + R_x + F_g
    let T_e := throttle * (s.a_0 + s.a_1 * w_e' + s.a_2 * w_e' ^ 2)
    some { s with x := x', v := v', w_e := w_e',
                  a := (F_x - F_load) / s.m,
                  w_e_dot := (T_e - s.GR * s.r_e * F_load) / s.J_e }

/-- The model-parameter fields (everything `__init__` sets other than the
five state variables) agree between two vehicle objects. -/
def paramsEq (p q : Veh) : Prop :=
  p.a_0 = q.a_0 ∧ p.a_1 = q.a_1 ∧ p.a_2 = q.a_2 ∧ p.GR = q.GR ∧
    p.r_e = q.r_e ∧ p.J_e = q.J_e ∧ p.m = q.m ∧ p.g = q.g ∧
    p.c_a = q.c_a ∧ p.c_r1 = q.c_r1 ∧ p.c = q.c ∧ p.F_max = q.F_max ∧
    p.sample_time = q.sample_time

/-- A state with a small positive velocity and a negative acceleration:
the in-step Euler integration drives the velocity to exactly zero before
the slip ratio divides by it. -/
def vehNearStop : Veh := { vehInit with v := 1/100, a := -1 }

/-- A state with zero velocity but nonzero acceleration: the updated
velocity is nonzero, so the step succeeds. -/
def vehStopped : Veh := { vehInit with v := 0, a := 1 }

/-- Claim C9 is false as stated: `vehNearStop` has velocity `1/100 ≠ 0`
yet `step` is undefined on it (the slip ratio divides by the updated
velocity `v + a·sample_time = 0`), and `vehStopped` has velocity `0` yet
`step` succeeds on it. -/
theorem veh_step_counterexample :
    (vehNearStop.v ≠ 0 ∧ vehNearStop.step 0 0 = none) ∧
      (vehStopped.v = 0 ∧ (vehStopped.step 0 0).isSome = true) := by
  refine ⟨⟨?_, ?_⟩, rfl, ?_⟩
  · norm_num [vehNearStop, vehInit]
  · norm_num [Veh.step, vehNearStop, vehInit]
  · norm_num [Veh.step, vehStopped, vehInit]

/-- Claim C9 (amended): `Vehicle.step` is defined exactly when the
post-integration velocity `v + a·sample_time` is nonzero — the slip-ratio
division is by the updated velocity, not the entry velocity — and the
constructor and `reset()` establish `v = 5`, `a = 0`, from which the first
slip-ratio division is by `5 ≠ 0`. -/
theorem veh_step_defined_iff (s : Veh) (throttle sinAlpha : ℚ) :
    ((s.step throttle sinAlpha).isSome ↔ s.v + s.a * s.sample_time ≠ 0) ∧
      vehInit.v = 5 ∧ vehInit.a = 0 ∧
      (Veh.reset s).v = 5 ∧ (Veh.reset s).a = 0 := by
  refine ⟨?_, rfl, rfl, rfl, rfl⟩
  by_cases hv : s.v + s.a * s.sample_time = 0
  · simp [Veh.step, hv]
  · simp [Veh.step, hv]

/-- Claim C10: `reset()` restores the five state variables exactly to the
constructor's values, and neither `reset` nor a successful `step` modifies
any model-parameter field. -/
theorem veh_reset_restores_params_immutable (s : Veh) (throttle sinAlpha : ℚ) :
    ((Veh.reset s).x = vehInit.x ∧ (Veh.reset s).v = vehInit.v ∧
        (Veh.reset s).a = vehInit.a ∧ (Veh.reset s).w_e = vehInit.w_e ∧
        (Veh.reset s).w_e_dot = vehInit.w_e_dot) ∧
      ((Veh.reset s).x = 0 ∧ (Veh.reset s).v = 5 ∧ (Veh.reset s).a = 0 ∧
        (Veh.reset s).w_e = 100 ∧ (Veh.reset s).w_e_dot = 0) ∧
      paramsEq (Veh.reset s) s ∧
      (s.step throttle sinAlpha).elim True (fun s' => paramsEq s' s) := by
  refine ⟨⟨rfl, rfl, rfl, rfl, rfl⟩, ⟨rfl, rfl, rfl, rfl, rfl⟩, ?_, ?_⟩
  · exact ⟨rfl, rfl, rfl, rfl, rfl, rfl, rfl, rfl, rfl, rfl, rfl, rfl, rfl⟩
  · by_cases hv : s.v + s.a * s.sample_time = 0
    · simp [Veh.step, hv]
    · simp [Veh.step, hv, paramsEq]

/-- `throttle_data` of the ramp cell: for `t_len` loop steps, 20% rising
linearly to 50% over the first quarter, 50% through the third quarter,
then `0.5 - 0.001·(t_len − t)/4`. -/
def throttle_data (tlen : ℕ) (t : ℕ) : ℚ :=
  if (t : ℚ) ≤ (tlen : ℚ) / 4 then 2/10 + 3/10 * t / ((tlen : ℚ) / 4)
  else if (t : ℚ) ≤ 3 * (tlen : ℚ) / 4 then 5/10
  else 5/10 - 1/1000 * ((tlen : ℚ) - (t : ℚ)) / 4

/-- The sine of the ramp's incline angle as a function of position:
`atan2(3,60)` below `x = 60`, `atan2(9,90)` below `x = 150`, and the
pre-initialized `alpha = 0` (whose sine is 0) beyond; the two irrational
sines enter as the parameters `sinA1`, `sinA2`. -/
def rampSinAlpha (sinA1 sinA2 xpos : ℚ) : ℚ :=
  if xpos < 60 then sinA1 else if xpos < 150 then sinA2 else 0

/-- The model state before iteration `i` of the ramp loop (so
`x_data[i] = (rampState sinA1 sinA2 i).x`): the loop starts from
`model.reset()` and steps with the scripted throttle and incline. -/
def rampState (sinA1 sinA2 : ℚ) : ℕ → Option Veh
  | 0 => some (Veh.reset vehInit)
  | i + 1 => (rampState sinA1 sinA2 i).bind fun mo =>
      mo.step (throttle_data 2000 i) (rampSinAlpha sinA1 sinA2 mo.x)

/-- `t_data = np.arange(0, time_end, sample_time)` at index `i`:
`0 + i·0.01`. -/
def t_data (i : ℕ) : ℚ := 0 + i * (1/100)

/-- The rows of the saved array `np.vstack([t_data, x_data]).T`, built one
row per loop iteration: row `i` pairs `t_data[i]` with the position
`x_data[i]` recorded before step `i` (`none` if an earlier step raised). -/
def xdataTable (sinA1 sinA2 : ℚ) : ℕ → List (ℚ × Option ℚ)
  | 0 => []
  | n + 1 => xdataTable sinA1 sinA2 n ++
      [(t_data n, (rampState sinA1 sinA2 n).map Veh.x)]

lemma xdataTable_length (s1 s2 : ℚ) (n : ℕ) :
    (xdataTable s1 s2 n).length = n := by
  induction n with
  | zero => rfl
  | succ n ih => simp [xdataTable, ih]

/-- Claim C8: the estimator's input is exactly the hardcoded table of five
`(current, voltage)` pairs, consumed one per update in table order (the
indexed loop equals the fold over the table), and the vehicle exercise
saves rows `(t_i, x_i)` with `t_i = i·0.01` and `x_i` the simulated
position before step `i`. -/
theorem rls_and_vehicle_data_tables (s1 s2 : ℚ) (i n : ℕ) (h : i < n) :
    meas = [(2/10, 123/100), (3/10, 138/100), (4/10, 206/100),
        (5/10, 247/100), (6/10, 317/100)] ∧
      rlsRun meas (x_0, P_0) = rlsIter 5 ∧
      t_data i = i * (1/100) ∧
      (xdataTable s1 s2 n).get? i
        = some (t_data i, (rampState s1 s2 i).map Veh.x) := by
  refine ⟨rfl, rfl, by simp [t_data], ?_⟩
  induction n with
  | zero => exact absurd h (Nat.not_lt_zero i)
  | succ n ih =>
    rcases Nat.lt_succ_iff_lt_or_eq.mp h with h' | rfl
    · rw [xdataTable, List.get?_append]
      · exact ih h'
      · rw [xdataTable_length]; exact h'
    · rw [xdataTable, List.get?_append_right]
      · rw [xdataTable_length, Nat.sub_self]
        rfl
      · rw [xdataTable_length]

/-- Claim C8, instantiated at `sinA1 = sinA2 = 0`, row `0` of a one-row
table. -/
theorem rls_and_vehicle_data_tables_witness :
    meas = [(2/10, 123/100), (3/10, 138/100), (4/10, 206/100),
        (5/10, 247/100), (6/10, 317/100)] ∧
      rlsRun meas (x_0, P_0) = rlsIter 5 ∧
      t_data 0 = 0 * (1/100) ∧
      (xdataTable 0 0 1).get? 0
        = some (t_data 0, (rampState 0 0 0).map Veh.x) :=
  rls_and_vehicle_data_tables 0 0 0 1 (by decide)
